import Mathlib

/-!
# Verification of the cosmos/gosec static analyzer against its specification

Shallow embedding of the analyzer's core functions, translated from the Go
source, together with theorems settling the specification claims.

Strings are modelled with Lean `String`; prefix and substring tests are
computed on the underlying character lists so that every definition is
executable by the kernel.
-/

/-- Go `strings.HasPrefix(s, pre)`. -/
def goHasPrefix (s pre : String) : Bool :=
  pre.toList.isPrefixOf s.toList

/-- Go `hasAnyPrefix(src, prefixes...)` from rules/sdk/integer.go: true iff
any of the given prefixes is a prefix of `src`. -/
def hasPrefixAny (src : String) (prefixes : List String) : Bool :=
  prefixes.any (fun p => goHasPrefix src p)

/-- Go `canLenOverflow64` (rules/sdk/integer.go lines 156-188): can a cast of
`len(...)` (a non-negative machine int) to `destKind` overflow on a 64-bit
host. The Go switch is translated case by case; the default case flags. -/
def canLenOverflow64 (destKind : String) : Bool :=
  if destKind == "int8" || destKind == "uint8" || destKind == "int16" || destKind == "uint16" then
    true
  else if destKind == "uint64" then false
  else if destKind == "uint32" then true
  else if destKind == "uint" then false
  else if destKind == "int64" then false
  else if destKind == "int32" then true
  else if destKind == "int" then false
  else true

/-- Go `canLenOverflow32` (rules/sdk/integer.go lines 194-226): the 32-bit-host
variant of the `len(...)` cast table. -/
def canLenOverflow32 (destKind : String) : Bool :=
  if destKind == "int8" || destKind == "uint8" || destKind == "int16" || destKind == "uint16" then
    true
  else if destKind == "uint64" then false
  else if destKind == "uint32" then false
  else if destKind == "uint" then false
  else if destKind == "int64" then false
  else if destKind == "int32" then false
  else if destKind == "int" then false
  else true

/-- The selection at integer.go lines 108-111: pick the 32-bit table when the
host is 32-bit, otherwise the 64-bit table. The Go constant `is32Bit` is a
host-word-size compile-time constant; it is an explicit parameter here so both
hosts can be reasoned about, as the spec's test harness prescribes. -/
def lenCanOverflow (is32Bit : Bool) (destKind : String) : Bool :=
  if is32Bit then canLenOverflow32 destKind else canLenOverflow64 destKind

/-- Go `canBothUintsOverflow` (rules/sdk/integer.go lines 228-255),
parameterized on the host word size flag. -/
def canBothUintsOverflow (is32Bit : Bool) (srcKind destKind : String) : Bool :=
  if !(hasPrefixAny srcKind ["uint"] && hasPrefixAny destKind ["uint"]) then true
  else if destKind == "uint" then srcKind == "uint64" && is32Bit
  else if destKind == "uint64" then false
  else if destKind == "uint32" then srcKind == "uint64" || (srcKind == "uint" && !is32Bit)
  else if destKind == "uint16" then srcKind == "uint64" || srcKind == "uint32" || srcKind == "uint"
  else if destKind == "uint8" then srcKind != "uint8"
  else true

/-- Go `canBothIntToIntOverflow` (rules/sdk/integer.go lines 257-284),
parameterized on the host word size flag. -/
def canBothIntToIntOverflow (is32Bit : Bool) (srcKind destKind : String) : Bool :=
  if !(hasPrefixAny srcKind ["int"] && hasPrefixAny destKind ["int"]) then true
  else if destKind == "int" then srcKind == "int64" && is32Bit
  else if destKind == "int64" then false
  else if destKind == "int32" then srcKind == "int64" || (srcKind == "int" && !is32Bit)
  else if destKind == "int16" then srcKind == "int64" || srcKind == "int32" || srcKind == "int"
  else if destKind == "int8" then srcKind != "int8"
  else true

/-- The flag decision of `integerOverflowCheck.Match` (integer.go lines
119-137) for a cast of a non-literal, non-`len(...)` argument whose underlying
type is `srcU`, to a destination whose underlying type is `destU`: identical
underlying types are ignored; then the unsigned and signed tables may clear
the cast; all other cases are flagged. -/
def castFlagDecision (is32Bit : Bool) (srcU destU : String) : Bool :=
  if srcU == destU then false
  else if hasPrefixAny srcU ["uint"] && !canBothUintsOverflow is32Bit srcU destU then false
  else if hasPrefixAny srcU ["int"] && !canBothIntToIntOverflow is32Bit srcU destU then false
  else true

/-- The ten integer kinds the claim quantifies over. -/
def intKinds : List String :=
  ["int8", "int16", "int32", "int64", "int", "uint8", "uint16", "uint32", "uint64", "uint"]

/-- Spec table (§4.5, 64-bit host): destinations for which a `len(...)` cast
is flagged. -/
def specLenFlag64 (destKind : String) : Bool :=
  (["int8", "uint8", "int16", "uint16", "uint32", "int32"] : List String).contains destKind

/-- Spec table (§4.5, 32-bit host): destinations for which a `len(...)` cast
is flagged. -/
def specLenFlag32 (destKind : String) : Bool :=
  (["int8", "uint8", "int16", "uint16"] : List String).contains destKind

/-- The claim's flag decision for a cast between two of the ten integer kinds:
the unsigned-to-unsigned table, its signed-to-signed mirror, never flagging a
cast between identical kinds, and flagging every mixed-signedness pair. -/
def specCastFlag (is32Bit : Bool) (src dest : String) : Bool :=
  if src == dest then false
  else if (["uint8", "uint16", "uint32", "uint64", "uint"] : List String).contains src &&
          (["uint8", "uint16", "uint32", "uint64", "uint"] : List String).contains dest then
    if dest == "uint64" then false
    else if dest == "uint32" then src == "uint64" || (src == "uint" && !is32Bit)
    else if dest == "uint16" then (["uint", "uint32", "uint64"] : List String).contains src
    else if dest == "uint8" then
      (["uint16", "uint32", "uint64", "uint"] : List String).contains src
    else src == "uint64" && is32Bit
  else if (["int8", "int16", "int32", "int64", "int"] : List String).contains src &&
          (["int8", "int16", "int32", "int64", "int"] : List String).contains dest then
    if dest == "int64" then false
    else if dest == "int32" then src == "int64" || (src == "int" && !is32Bit)
    else if dest == "int16" then (["int", "int32", "int64"] : List String).contains src
    else if dest == "int8" then
      (["int16", "int32", "int64", "int"] : List String).contains src
    else src == "int64" && is32Bit
  else true

/-- Claim C1: for every pair of the ten integer kinds and on both host word
sizes, the integer-cast rule's flag decision matches the spec's tables: the
`len(...)` table flags exactly {int8, uint8, int16, uint16, uint32, int32} on
a 64-bit host and exactly {int8, uint8, int16, uint16} on a 32-bit host; an
unflagged `len(...)` destination is always one of the four safe kinds of the
respective host table, so every unknown kind defaults to flagging; and the
general cast decision (unsigned table, mirrored signed table, mixed pairs
flagged) matches on all one hundred pairs for both hosts. -/
theorem C1_integer_cast_tables :
    ((intKinds.all fun d =>
        (canLenOverflow64 d == specLenFlag64 d) &&
        (canLenOverflow32 d == specLenFlag32 d)) = true) ∧
    (∀ destKind : String, canLenOverflow64 destKind = false →
      (["uint64", "uint", "int64", "int"] : List String).contains destKind = true) ∧
    (∀ destKind : String, canLenOverflow32 destKind = false →
      (["uint64", "uint32", "uint", "int64", "int32", "int"] : List String).contains destKind
        = true) ∧
    ((intKinds.all fun src => intKinds.all fun dest =>
        (castFlagDecision true src dest == specCastFlag true src dest) &&
        (castFlagDecision false src dest == specCastFlag false src dest)) = true) ∧
    (∀ is32Bit : Bool, ∀ destKind : String,
      lenCanOverflow is32Bit destKind =
        if is32Bit then canLenOverflow32 destKind else canLenOverflow64 destKind) := by
  refine ⟨by decide, ?_, ?_, by decide, fun _ _ => rfl⟩
  · intro d h
    simp only [canLenOverflow64] at h
    split_ifs at h <;> simp_all
  · intro d h
    simp only [canLenOverflow32] at h
    split_ifs at h <;> simp_all

/-- Witness for C1: the theorem applied at the concrete safe destination kind
`uint64` (64-bit host) and `uint32` (32-bit host). -/
theorem C1_integer_cast_tables_witness :
    (["uint64", "uint", "int64", "int"] : List String).contains "uint64" = true ∧
    (["uint64", "uint32", "uint", "int64", "int32", "int"] : List String).contains "uint32"
      = true :=
  ⟨C1_integer_cast_tables.2.1 "uint64" (by decide),
   C1_integer_cast_tables.2.2.1 "uint32" (by decide)⟩

/-!
## R-TimeNow (rules/sdk/time_now.go)

`timeNowCheck.Match` (lines 31-63). The Go AST fragment needed by the rule is
embedded as `TExpr`; the outcome of a rule's `Match(node, ctx)` call, a pair
`(*gosec.Issue, error)`, is embedded as `RuleOutcome`.
-/

/-- Severity / confidence levels (gosec.Low < gosec.Medium < gosec.High). -/
inductive GoLevel where
  | low
  | medium
  | high
deriving DecidableEq, Repr

/-- Outcome of a rule's `Match` call: `(nil, nil)`, `(issue, nil)` with the
issue's What/Severity/Confidence, or `(nil, err)`. -/
inductive RuleOutcome where
  | nothing
  | issueOut (what : String) (sev conf : GoLevel)
  | errorOut (msg : String)
deriving DecidableEq, Repr

/-- AST expressions used by the time.Now rule: identifiers, selector
expressions `x.Sel`, call expressions, anything else. -/
inductive TExpr where
  | identT (name : String)
  | selT (x : TExpr) (selName : String)
  | callT (fn : TExpr) (args : List TExpr)
  | otherT
deriving Repr

/-- The error message built at time_now.go line 62. -/
def timeNowErrMsg : String :=
  "time.Now() is non-deterministic for distributed consensus, you should use the current Block's timestamp"

/-- The rule's MetaData.What (time_now.go line 76). -/
def timeNowWhat : String :=
  "Non-determinism from using non-consensus aware time.Now() can cause a chain halt"

/-- Go `timeNowCheck.Match` (time_now.go lines 31-63): require a call whose
Fun is a selector named `Now`; an identifier receiver must be named `time`, a
selector receiver must have Sel named `time`, and any other receiver falls
through the switch; in all surviving cases the function returns
`(nil, errors.New(...))` — an error, not an issue. -/
def timeNowMatch (node : TExpr) : RuleOutcome :=
  match node with
  | .callT fn _ =>
    match fn with
    | .selT x selName =>
      if selName ≠ "Now" then .nothing
      else
        match x with
        | .identT name => if name ≠ "time" then .nothing else .errorOut timeNowErrMsg
        | .selT _ xSelName => if xSelName ≠ "time" then .nothing else .errorOut timeNowErrMsg
        | _ => .errorOut timeNowErrMsg
    | _ => .nothing
  | _ => .nothing

/-- Claim C4 (code bug): on a call whose selector is `Now` with receiver
`time`, `timeNowCheck.Match` returns `(nil, error)` — the violation surfaces
as an error (logged and discarded by the visitor), never as the proper
High/High issue the spec prescribes. -/
theorem C4_time_now_returns_error :
    (∀ args : List TExpr,
      timeNowMatch (.callT (.selT (.identT "time") "Now") args) = .errorOut timeNowErrMsg) ∧
    decide (timeNowMatch (.callT (.selT (.identT "time") "Now") [])
      = .issueOut timeNowWhat .high .high) = false := by
  exact ⟨fun _ => rfl, by decide⟩

/-!
## R-ErrorNotPropagated (noErrorCheck, second half of rules/sdk/iterate_over_maps.go sources)

`returnsError` (lines 293-310) and `noErrorCheck.Match` (lines 312-340).
-/

/-- The go/types type of a call expression as the rule inspects it: a result
tuple (field type strings), a named type, or anything else. -/
inductive GoRetType where
  | tupleT (fields : List String)
  | namedT (name : String)
  | otherRet
deriving DecidableEq, Repr

/-- AST expressions used by the error-propagation rule. A call carries
`ctx.Info.TypeOf(callExpr)` (`none` models a nil type). -/
inductive NExpr where
  | identN (name : String)
  | callN (retTy : Option GoRetType)
  | otherN
deriving DecidableEq, Repr

/-- Go `returnsError` (lines 293-310): the first tuple position whose type
prints as `error`, 0 for a named type printing as `error`, and -1 otherwise. -/
def returnsError (retTy : Option GoRetType) : Int :=
  match retTy with
  | some (.tupleT fields) =>
    match fields.findIdx? (fun t => t == "error") with
    | some pos => (pos : Int)
    | none => -1
  | some (.namedT name) => if name == "error" then 0 else -1
  | _ => -1

/-- The rule's MetaData.What (line 350). -/
def noErrorWhat : String := "Returned error is not propagated up the stack."

/-- The loop body of `noErrorCheck.Match` (lines 318-337) over the assignment's
right-hand sides: for the first call expression, an error position out of range
of the left-hand side ends the match with no issue; a non-identifier at that
position yields the "PANIC!" issue; the blank identifier yields the What
issue; otherwise the loop continues. -/
def noErrorLoop (lhs : List NExpr) : List NExpr → Option String
  | [] => none
  | e :: rest =>
    match e with
    | .callN retTy =>
      let pos := returnsError retTy
      if pos < 0 ∨ (lhs.length : Int) ≤ pos then none
      else
        match lhs.get? pos.toNat with
        | some (.identN name) => if name == "_" then some noErrorWhat else noErrorLoop lhs rest
        | some _ => some "PANIC!"
        | none => none
    | _ => noErrorLoop lhs rest

/-- Go `noErrorCheck.Match` on an `*ast.AssignStmt` (lines 316-338), returning
the issue message if any. -/
def noErrorMatch (lhs rhs : List NExpr) : Option String := noErrorLoop lhs rhs

/-- Claim C9: for an assignment whose right-hand side is a call returning an
error at tuple position `p`: when `p` is within the left-hand side, the rule
issues the What message on a blank identifier, issues "PANIC!" on any
non-identifier expression, and stays silent on a proper identifier; when `p`
is out of range, no issue is emitted. -/
theorem C9_error_not_propagated :
    ∀ (lhs : List NExpr) (retTy : Option GoRetType) (p : Nat),
      returnsError retTy = (p : Int) →
      (∀ hp : p < lhs.length,
        noErrorMatch lhs [.callN retTy] =
          match lhs.get ⟨p, hp⟩ with
          | .identN name => if name == "_" then some noErrorWhat else none
          | _ => some "PANIC!") ∧
      (lhs.length ≤ p → noErrorMatch lhs [.callN retTy] = none) := by
  intro lhs retTy p hret
  constructor
  · intro hp
    have hcond : ¬((p : Int) < 0 ∨ (lhs.length : Int) ≤ (p : Int)) := by
      omega
    simp only [noErrorMatch, noErrorLoop, hret, if_neg hcond, Int.toNat_natCast]
    rw [List.get?_eq_get hp]
    cases lhs.get ⟨p, hp⟩ <;> simp [noErrorLoop]
  · intro hge
    have hcond : ((p : Int) < 0 ∨ (lhs.length : Int) ≤ (p : Int)) := by
      right
      exact_mod_cast hge
    simp only [noErrorMatch, noErrorLoop, hret, if_pos hcond]

/-- Witness for C9: `x, _ := f()` with `f` returning `(int, error)` yields the
What issue; a selector at the error position yields "PANIC!"; an error
position beyond the left-hand side yields nothing. -/
theorem C9_error_not_propagated_witness :
    noErrorMatch [.identN "x", .identN "_"] [.callN (some (.tupleT ["int", "error"]))]
      = some noErrorWhat ∧
    noErrorMatch [.identN "x", .otherN] [.callN (some (.tupleT ["int", "error"]))]
      = some "PANIC!" ∧
    noErrorMatch [.identN "x"] [.callN (some (.tupleT ["int", "error"]))] = none := by
  refine ⟨?_, ?_, ?_⟩
  · exact ((C9_error_not_propagated [.identN "x", .identN "_"]
      (some (.tupleT ["int", "error"])) 1 (by decide)).1 (by decide)).trans rfl
  · exact ((C9_error_not_propagated [.identN "x", .otherN]
      (some (.tupleT ["int", "error"])) 1 (by decide)).1 (by decide)).trans rfl
  · exact (C9_error_not_propagated [.identN "x"]
      (some (.tupleT ["int", "error"])) 1 (by decide)).2 (by decide)

/-!
## R-StrconvBitSize (rules/sdk/strconv_bitsize_mismatch.go)

`bitsizeOverflowCheck.Match` (lines 34-138). The rule is two-phase: on an
assignment it records `lhs[0]'s object → assignment` in
`ctx.PassedValues[id]` whenever a right-hand side call matches
`strconv.ParseUint`; on a call to `int`/`int16`/`int32`/`int64` with a
recorded identifier argument it parses the original literal bitSize argument
and flags overflow. `ctx.PassedValues[id]` is modelled directly as the
association list `PassedVals` (the initial empty-map branch and the
impossible wrong-type branch at lines 39-46 collapse to starting from the
given list); identifier objects (`*ast.Object`) are modelled as numeric ids.
-/

/-- AST expressions used by the bitsize rule: an identifier with its object
id, a call (whether its Fun is an identifier, whether `ContainsPkgCallExpr`
resolves it to `strconv.ParseUint`, and its arguments), a basic literal, or
anything else. -/
inductive BExpr where
  | identB (name : String) (objId : Nat)
  | callB (fnIdent : Option String) (isParseUint : Bool) (args : List BExpr)
  | litB (value : String)
  | otherB
deriving Repr

/-- An `*ast.AssignStmt`: Go guarantees at least one Lhs and one Rhs. -/
structure BAssign where
  lhs : List BExpr
  rhs : List BExpr
deriving Repr

/-- The `map[*ast.Object]ast.Node` stored in PassedValues: newest entry
first, so lookup sees the latest write, as a Go map does. -/
abbrev PassedVals := List (Nat × BAssign)

/-- Go map lookup `parseUintVarObj[obj]`. -/
def pvLookup (pv : PassedVals) (k : Nat) : Option BAssign :=
  match pv with
  | [] => none
  | (k2, v) :: rest => if k2 == k then some v else pvLookup rest k

/-- Digit-string value, for the Go strconv parsers. -/
def digitsToNat (ds : List Char) : Nat :=
  ds.foldl (fun a c => a * 10 + (c.toNat - 48)) 0

/-- Go `strconv.Atoi` on a 64-bit host: an optional sign followed by at least
one decimal digit, rejecting any other character and values outside the int64
range. -/
def goAtoi (s : String) : Option Int :=
  match s.toList with
  | [] => none
  | cs =>
    let signed : Bool × List Char :=
      match cs with
      | '+' :: rest => (false, rest)
      | '-' :: rest => (true, rest)
      | _ => (false, cs)
    let neg := signed.1
    let ds := signed.2
    if ds.isEmpty then none
    else if ds.all (fun c => c.isDigit) then
      let v : Int := if neg then -(digitsToNat ds : Int) else (digitsToNat ds : Int)
      if -(2 ^ 63) ≤ v ∧ v < 2 ^ 63 then some v else none
    else none

/-- The `Match` phase on an `*ast.AssignStmt` (lines 51-66): for each
right-hand side call resolved to `strconv.ParseUint`, record `Lhs[0]`'s object
unless it is the blank identifier or not an identifier. -/
def bitsizeMatchAssign (pv : PassedVals) (n : BAssign) : PassedVals :=
  n.rhs.foldl
    (fun acc expr =>
      match expr with
      | .callB _ true _ =>
        match n.lhs.headD .otherB with
        | .identB name objId => if name ≠ "_" then (objId, n) :: acc else acc
        | _ => acc
      | _ => acc)
    pv

/-- Result of the `Match` phase on a call: no issue, an issue with its
message, or a Go runtime panic (an out-of-range index such as `Args[2]` on a
shorter argument list). -/
inductive BResult where
  | noIssue
  | issueB (msg : String)
  | panicked
deriving DecidableEq, Repr

/-- Go `fmt` `%q` for the plain identifiers and literals that reach it here
(no escaping needed). -/
def goQuote (s : String) : String := "\"" ++ s ++ "\""

/-- The message built at strconv_bitsize_mismatch.go line 127. -/
def bitsizeOverflowMsg (bitSize : Int) (fnName : String) : String :=
  "Overflow in bitSize of " ++ toString bitSize ++ " for " ++ goQuote fnName

/-- The `Match` phase on an `*ast.CallExpr` (lines 68-134): a cast
`int*/int(x)` where `x` is a recorded identifier fetches the recorded
assignment, extracts the ParseUint call's third argument as a literal, parses
it with `strconv.Atoi` (a failure produces the parse-failure issue), and
flags when the bitSize reaches the destination's signed capacity. The stored
node is always an `*ast.AssignStmt`, so the type assertion at line 89 always
succeeds in this model. The error detail appended by `%v` at line 106 is
elided from the parse-failure message. -/
def bitsizeMatchCall (pv : PassedVals) (fnIdent : Option String) (args : List BExpr) : BResult :=
  match fnIdent with
  | none => .noIssue
  | some fnName =>
    if fnName == "int" || fnName == "int16" || fnName == "int32" || fnName == "int64" then
      match args.head? with
      | none => .panicked
      | some argExpr =>
        match argExpr with
        | .identB _ objId =>
          match pvLookup pv objId with
          | none => .noIssue
          | some stmt =>
            match stmt.rhs.head? with
            | none => .panicked
            | some r0 =>
              match r0 with
              | .callB _ _ cargs =>
                match cargs.get? 2 with
                | none => .panicked
                | some a2 =>
                  match a2 with
                  | .litB v =>
                    match goAtoi v with
                    | none => .issueB ("Invalid bitSize " ++ goQuote v ++ " parse failure")
                    | some bitSize =>
                      if (fnName == "int16" && decide (16 ≤ bitSize)) ||
                         (fnName == "int64" && decide (64 ≤ bitSize)) ||
                         (fnName == "int32" && decide (32 ≤ bitSize)) ||
                         (fnName == "int" && (bitSize == 32 || decide (64 ≤ bitSize))) then
                        .issueB (bitsizeOverflowMsg bitSize fnName)
                      else .noIssue
                  | _ => .noIssue
              | _ => .noIssue
        | _ => .noIssue
    else .noIssue

/-- The claim's overflow table: flag when bitSize ≥ 16 for int16, ≥ 32 for
int32, ≥ 64 for int64, and = 32 or ≥ 64 for int. -/
def specBitsizeOverflow (dest : String) (bitSize : Int) : Bool :=
  if dest == "int16" then decide (16 ≤ bitSize)
  else if dest == "int32" then decide (32 ≤ bitSize)
  else if dest == "int64" then decide (64 ≤ bitSize)
  else if dest == "int" then bitSize == 32 || decide (64 ≤ bitSize)
  else false

/-- Claim C6: after an assignment records `name := strconv.ParseUint(s, base,
bitLit)`, a later cast of that identifier to int/int16/int32/int64 yields an
issue exactly per the bitSize table, a malformed literal yields the
parse-failure issue, and the overflow message is
`Overflow in bitSize of <n> for "<dest>"`. -/
theorem C6_strconv_bitsize :
    ∀ (name : String) (objId : Nat) (bitLit : String) (dest : String) (sArg baseArg : BExpr),
      name ≠ "_" →
      dest ∈ (["int", "int16", "int32", "int64"] : List String) →
      bitsizeMatchCall
        (bitsizeMatchAssign []
          ⟨[.identB name objId], [.callB (some "ParseUint") true [sArg, baseArg, .litB bitLit]]⟩)
        (some dest) [.identB name objId]
      = (match goAtoi bitLit with
         | none => .issueB ("Invalid bitSize " ++ goQuote bitLit ++ " parse failure")
         | some bs =>
           if specBitsizeOverflow dest bs then .issueB (bitsizeOverflowMsg bs dest)
           else .noIssue) := by
  intro name objId bitLit dest sArg baseArg hname hdest
  have hassign :
      bitsizeMatchAssign []
        ⟨[.identB name objId], [.callB (some "ParseUint") true [sArg, baseArg, .litB bitLit]]⟩
      = [(objId,
          ⟨[.identB name objId], [.callB (some "ParseUint") true [sArg, baseArg, .litB bitLit]]⟩)] := by
    simp [bitsizeMatchAssign, hname]
  rw [hassign]
  simp only [List.mem_cons, List.mem_singleton, List.not_mem_nil, or_false] at hdest
  rcases hdest with rfl | rfl | rfl | rfl <;>
    · simp only [bitsizeMatchCall, pvLookup, beq_self_eq_true, if_pos]
      cases hatoi : goAtoi bitLit <;>
        simp [hatoi, specBitsizeOverflow]

/-- Witness for C6: `u, _ := strconv.ParseUint(s, 10, 64); int64(u)` yields
exactly the issue `Overflow in bitSize of 64 for "int64"`. -/
theorem C6_strconv_bitsize_witness :
    bitsizeMatchCall
      (bitsizeMatchAssign []
        ⟨[.identB "u" 1], [.callB (some "ParseUint") true [.otherB, .otherB, .litB "64"]]⟩)
      (some "int64") [.identB "u" 1]
    = .issueB "Overflow in bitSize of 64 for \"int64\"" := by
  have h := C6_strconv_bitsize "u" 1 "64" "int64" .otherB .otherB (by decide) (by decide)
  rw [h]
  rfl

/-!
## Generated-file filter (`filterOutGeneratedGoFiles`, analyzer source lines 162-238)

A file is modelled by its path and its content. The Go regexp
`^// Code generated .* DO NOT EDIT\.` is compiled without the multiline flag,
so `^` anchors at the very beginning of the text and `.` does not match a
newline: the blob matches iff its first line starts with the 18-character
prefix `// Code generated ` and the remainder of that first line contains
` DO NOT EDIT.`.

The concurrent general path tags each file with its position, filters in
worker goroutines, collects survivors in an arbitrary channel order, and
restores the input order with `sort.Slice` on the position (lines 183-237).
The sort is modelled by `List.mergeSort`; the claim theorem quantifies over
every arrival order of the survivors.
-/

/-- Substring test on character lists. -/
def containsSub : List Char → List Char → Bool
  | hay, needle =>
    needle.isPrefixOf hay ||
      match hay with
      | [] => false
      | _ :: t => containsSub t needle

/-- The literal prefix of the generated-file pattern (18 characters). -/
def generatedPre : String := "// Code generated "

/-- Go `reGeneratedGoFile.Match(blob)` (line 162). -/
def isGeneratedGoFile (content : String) : Bool :=
  let firstLine := content.toList.takeWhile (fun c => c ≠ '\n')
  generatedPre.toList.isPrefixOf firstLine &&
    containsSub (firstLine.drop 18) " DO NOT EDIT.".toList

/-- A Go file presented to the filter: its path and the blob `os.ReadFile`
returns for it (the claim assumes readable files, so reads are total). -/
structure GoFile where
  path : String
  content : String
deriving DecidableEq, Repr

/-- The position-tagged survivors that the worker goroutines forward on the
result channel (lines 191-217): the input files tagged with their index,
keeping those whose blob does not match the generated header. -/
def survivors (files : List GoFile) : List (Nat × GoFile) :=
  files.enum.filter (fun pi => !isGeneratedGoFile pi.2.content)

/-- The consumer (lines 224-237): collect the arrived (position, file) pairs
in whatever order the channel delivered them, sort by position, and project
the paths. -/
def generalPathFrom (arrived : List (Nat × GoFile)) : List String :=
  (arrived.mergeSort (fun a b => decide (a.1 ≤ b.1))).map (fun pi => pi.2.path)

/-- Go `filterOutGeneratedGoFiles` (lines 167-238): nil on empty input, a
non-concurrent fast path for a single file, and the concurrent general path
(written here at the canonical arrival order; the claim theorem covers every
arrival order). -/
def filterOutGeneratedGoFiles (files : List GoFile) : List String :=
  match files with
  | [] => []
  | [f] => if !isGeneratedGoFile f.content then [f.path] else []
  | _ => generalPathFrom (survivors files)

/-- The filtered-in-place survivors are pairwise strictly increasing in
position. -/
theorem survivors_pairwise (files : List GoFile) :
    List.Pairwise (fun a b : Nat × GoFile => a.1 < b.1) (survivors files) := by
  apply List.Pairwise.filter
  have h : List.Pairwise (· < ·) (files.enum.map Prod.fst) := by
    rw [List.enum_map_fst]
    exact List.pairwise_lt_range _
  exact List.pairwise_map.mp h

/-- Projecting the payload out of filtered position-tagged pairs is filtering
the payloads. -/
theorem enumFrom_filter_map_snd {α β : Type} (p : α → Bool) (f : α → β) :
    ∀ (l : List α) (n : Nat),
      ((List.enumFrom n l).filter (fun pi => p pi.2)).map (fun pi => f pi.2)
        = (l.filter p).map f := by
  intro l
  induction l with
  | nil => intro n; rfl
  | cons hd tl ih =>
    intro n
    by_cases h : p hd <;> simp [List.enumFrom, h, ih]

/-- Sorting any arrival order of the survivors by position restores the
input-order filter. -/
theorem generalPath_eq_filter (files : List GoFile) (arrived : List (Nat × GoFile))
    (hperm : arrived.Perm (survivors files)) :
    generalPathFrom arrived
      = (files.filter (fun f => !isGeneratedGoFile f.content)).map GoFile.path := by
  have hperm2 :
      (arrived.mergeSort (fun a b => decide (a.1 ≤ b.1))).Perm (survivors files) :=
    (List.mergeSort_perm arrived _).trans hperm
  have hout :
      List.Pairwise (fun a b : Nat × GoFile => decide (a.1 ≤ b.1) = true)
        (arrived.mergeSort (fun a b => decide (a.1 ≤ b.1))) :=
    List.sorted_mergeSort
      (fun a b c h1 h2 => by
        simp only [decide_eq_true_eq] at *
        omega)
      (fun a b => by
        simp only [Bool.or_eq_true, decide_eq_true_eq]
        omega)
      arrived
  have hle :
      List.Pairwise (fun a b : Nat × GoFile => a.1 ≤ b.1)
        (arrived.mergeSort (fun a b => decide (a.1 ≤ b.1))) :=
    hout.imp (fun h => by simpa using h)
  have hsurv := survivors_pairwise files
  have hnodupSurv : List.Pairwise (fun a b : Nat × GoFile => a.1 ≠ b.1) (survivors files) :=
    hsurv.imp (fun h => Nat.ne_of_lt h)
  have hnodupOut :
      List.Pairwise (fun a b : Nat × GoFile => a.1 ≠ b.1)
        (arrived.mergeSort (fun a b => decide (a.1 ≤ b.1))) := by
    apply List.pairwise_map.mp
    have hmapperm :
        (((survivors files)).map Prod.fst).Perm
          ((arrived.mergeSort (fun a b => decide (a.1 ≤ b.1))).map Prod.fst) :=
      (hperm2.map Prod.fst).symm
    exact hmapperm.nodup (List.pairwise_map.mpr hnodupSurv)
  have hlt :
      List.Pairwise (fun a b : Nat × GoFile => a.1 < b.1)
        (arrived.mergeSort (fun a b => decide (a.1 ≤ b.1))) :=
    (hle.and hnodupOut).imp (fun h => Nat.lt_of_le_of_ne h.1 h.2)
  haveI : IsAntisymm (Nat × GoFile) (fun a b => a.1 < b.1) :=
    ⟨fun a b h1 h2 => absurd (Nat.lt_trans h1 h2) (Nat.lt_irrefl _)⟩
  have hsortEq :
      arrived.mergeSort (fun a b => decide (a.1 ≤ b.1)) = survivors files :=
    List.eq_of_perm_of_sorted hperm2 hlt hsurv
  unfold generalPathFrom
  rw [hsortEq]
  exact enumFrom_filter_map_snd (fun f => !isGeneratedGoFile f.content) GoFile.path files 0

/-- Claim C5 as amended: the filter returns the subsequence, in input order,
of the files whose content does not match the anchored generated-file header
(i.e. whose first line does not carry it); the empty input returns empty; the
single-file fast path and the concurrent general path agree with that result
under every arrival order of the survivors. -/
theorem C5_generated_filter_amended :
    ∀ (files : List GoFile) (arrived : List (Nat × GoFile)),
      arrived.Perm (survivors files) →
      generalPathFrom arrived
        = (files.filter (fun f => !isGeneratedGoFile f.content)).map GoFile.path ∧
      filterOutGeneratedGoFiles files
        = (files.filter (fun f => !isGeneratedGoFile f.content)).map GoFile.path := by
  intro files arrived hperm
  refine ⟨generalPath_eq_filter files arrived hperm, ?_⟩
  match files with
  | [] => rfl
  | [f] =>
    by_cases h : isGeneratedGoFile f.content <;>
      simp [filterOutGeneratedGoFiles, h]
  | f :: g :: rest =>
    exact generalPath_eq_filter (f :: g :: rest) _ (List.Perm.refl _)

/-- A file whose generated header sits on its second line, after a blank
first line. -/
def genHeaderAfterBlank : GoFile :=
  ⟨"gen.go", "\n// Code generated by foo. DO NOT EDIT.\npackage main\n"⟩

/-- The claim's reading: the first non-empty line of the content matches the
generated-file header pattern. -/
def specFirstNonEmptyMatches (content : String) : Bool :=
  match (content.toList.splitOn '\n').find? (fun l => !l.isEmpty) with
  | none => false
  | some l =>
    generatedPre.toList.isPrefixOf l && containsSub (l.drop 18) " DO NOT EDIT.".toList

/-- Counterexample to C5 as stated: a file whose first non-empty line matches
the header pattern (so the claim excludes it from the result), yet the filter
keeps it, because the Go regexp is anchored at the start of the text and the
first line is empty. -/
theorem C5_generated_filter_counterexample :
    filterOutGeneratedGoFiles [genHeaderAfterBlank] = ["gen.go"] ∧
    specFirstNonEmptyMatches genHeaderAfterBlank.content = true := by
  exact ⟨rfl, rfl⟩

/-- Witness for C5: a three-file input whose middle file is generated, with
the survivors arriving out of order, yields the in-order filtered paths. -/
theorem C5_generated_filter_witness :
    generalPathFrom [(2, ⟨"c.go", "package c\n"⟩), (0, ⟨"a.go", "package a\n"⟩)]
      = ["a.go", "c.go"] := by
  have h :=
    (C5_generated_filter_amended
      [⟨"a.go", "package a\n"⟩, ⟨"b.go", "// Code generated by x. DO NOT EDIT.\n"⟩,
       ⟨"c.go", "package c\n"⟩]
      [(2, ⟨"c.go", "package c\n"⟩), (0, ⟨"a.go", "package a\n"⟩)]
      (by decide)).1
  rw [h]
  rfl

/-!
## Analyzer.Check (analyzer source lines 315-353)

`Check` iterates the package's syntax files: non-`.go` files and files under
a `testutil` path component are skipped entirely; a surviving file is walked
only when the single-file generated filter keeps it; NumFiles and NumLines
are incremented after the walk in every non-skipped case — generated or not.
The AST walk itself is modelled by the issues it would append
(`ChkFile.walkIssues`); the walk's internals are the visitor model below.
-/

/-- Go `filepath.Ext`: the suffix of the last path element beginning at its
final dot, empty when that element has no dot. -/
def goFilepathExt (p : String) : String :=
  let base := (p.toList.splitOn '/').getLastD []
  let revTail := base.reverse.takeWhile (fun c => c ≠ '.')
  if revTail.length == base.length then "" else String.mk ('.' :: revTail.reverse)

/-- Go `underTestUtilDirOrPath` (lines 304-312): some slash-separated
component equals `testutil`. -/
def underTestUtilDirOrPath (path : String) : Bool :=
  (path.toList.splitOn '/').any (fun comp => comp == "testutil".toList)

/-- A syntax file as `Check` sees it: FileSet name, blob content, line count,
and the issues a walk of its AST would append. -/
structure ChkFile where
  path : String
  content : String
  lineCount : Nat
  walkIssues : List String
deriving DecidableEq, Repr

/-- The analyzer state `Check` updates: the NumFiles and NumLines metrics and
the issue list. -/
structure ChkState where
  numFiles : Nat
  numLines : Nat
  issues : List String
deriving DecidableEq, Repr

/-- One iteration of `Check`'s loop (lines 318-352). -/
def checkFile (st : ChkState) (f : ChkFile) : ChkState :=
  if goFilepathExt f.path != ".go" then st
  else if underTestUtilDirOrPath f.path then st
  else
    let st1 :=
      if (filterOutGeneratedGoFiles [⟨f.path, f.content⟩]).length > 0 then
        { st with issues := st.issues ++ f.walkIssues }
      else st
    { st1 with numFiles := st1.numFiles + 1, numLines := st1.numLines + f.lineCount }

/-- Go `Analyzer.Check` over the package's syntax files, from fresh metrics. -/
def check (files : List ChkFile) : ChkState :=
  files.foldl checkFile ⟨0, 0, []⟩

/-- A generated file: its first line carries the generated header. -/
def genChkFile : ChkFile :=
  ⟨"/p/gen.go", "// Code generated by foo. DO NOT EDIT.\npackage p\n", 2, ["GEN-ISSUE"]⟩

/-- A hand-written file whose walk yields one issue. -/
def handChkFile : ChkFile := ⟨"/p/hand.go", "package p\n", 1, ["H1"]⟩

/-- Counterexample to C7 as stated: a package with one generated and one
hand-written file reports only the hand-written file's issues, but NumFiles
is 2, not 1 — the generated file does change NumFiles. -/
theorem C7_check_counterexample :
    (check [genChkFile, handChkFile]).numFiles = 2 ∧
    (check [handChkFile]).numFiles = 1 ∧
    (check [genChkFile, handChkFile]).issues = ["H1"] ∧
    (check [handChkFile]).issues = ["H1"] := by
  exact ⟨rfl, rfl, rfl, rfl⟩

/-- Claim C7 as amended: for a `.go` file outside `testutil`, a generated
file contributes no issues but still increments NumFiles and adds its line
count to NumLines; a non-generated file additionally appends its walk's
issues. -/
theorem C7_check_amended :
    ∀ (st : ChkState) (f : ChkFile),
      goFilepathExt f.path = ".go" →
      underTestUtilDirOrPath f.path = false →
      (isGeneratedGoFile f.content = true →
        checkFile st f = ⟨st.numFiles + 1, st.numLines + f.lineCount, st.issues⟩) ∧
      (isGeneratedGoFile f.content = false →
        checkFile st f =
          ⟨st.numFiles + 1, st.numLines + f.lineCount, st.issues ++ f.walkIssues⟩) := by
  intro st f hext hutil
  constructor <;> intro hgen <;>
    simp [checkFile, hext, hutil, filterOutGeneratedGoFiles, hgen]

/-- Witness for C7: the amended claim applied to the concrete generated and
hand-written files. -/
theorem C7_check_witness :
    checkFile ⟨0, 0, []⟩ genChkFile = ⟨1, 2, []⟩ ∧
    checkFile ⟨1, 2, []⟩ handChkFile = ⟨2, 3, ["H1"]⟩ := by
  constructor
  · exact (C7_check_amended ⟨0, 0, []⟩ genChkFile rfl rfl).1 rfl
  · exact (C7_check_amended ⟨1, 2, []⟩ handChkFile rfl rfl).2 rfl

/-!
## SARIF location builder (`buildSarifLocation`, output source lines 125-167)

`Line` is split on dashes; the first component is parsed as the start line,
the second (when present) as the end line, further components being ignored;
`Col` is parsed once and used as both columns. A failing `strconv.ParseUint`
is surfaced as an error to the caller, modelled by `none`. The artifact URI
starts as the empty string and each configured root that is a string prefix
of the file path overwrites it with the file path minus the first occurrence
of `root + "/"` — so the last matching root wins.
-/

/-- An issue as the SARIF builder consumes it. -/
structure SarifIssue where
  file : String
  line : String
  col : String
deriving DecidableEq, Repr

/-- A SARIF region: start/end lines and columns. -/
structure SarifRegion where
  startLine : Nat
  endLine : Nat
  startColumn : Nat
  endColumn : Nat
deriving DecidableEq, Repr

/-- A SARIF physical location: artifact URI and region. -/
structure SarifLocation where
  uri : String
  region : SarifRegion
deriving DecidableEq, Repr

/-- Go `strconv.ParseUint(s, 10, 64)`: decimal digits only, no sign, value
within 64 bits. -/
def goParseUint64 (cs : List Char) : Option Nat :=
  if cs.isEmpty then none
  else if cs.all (fun c => c.isDigit) then
    let v := digitsToNat cs
    if v < 2 ^ 64 then some v else none
  else none

/-- Go `strings.Replace(s, pat, "", 1)`: remove the first occurrence of
`pat`, leaving `s` unchanged when `pat` does not occur. -/
def removeFirst : List Char → List Char → List Char
  | s, pat =>
    if pat.isPrefixOf s then s.drop pat.length
    else
      match s with
      | [] => []
      | c :: t => c :: removeFirst t pat

/-- `strings.Replace(s, pat, "", 1)` on the model's strings. -/
def goReplaceFirst (s pat : String) : String := String.mk (removeFirst s.toList pat.toList)

/-- The root-stripping loop (lines 146-150): `filePath` starts empty and each
matching root overwrites it. -/
def stripRootLoop (file : String) (roots : List String) : String :=
  roots.foldl
    (fun acc root => if goHasPrefix file root then goReplaceFirst file (root ++ "/") else acc)
    ""

/-- Go `strings.Split(s, "-")`. -/
def goSplitDash (s : String) : List (List Char) := s.toList.splitOn '-'

/-- Go `buildSarifLocation` (lines 125-167). `none` models the strconv error
returned to the caller. -/
def buildSarifLocation (issue : SarifIssue) (rootPaths : List String) : Option SarifLocation :=
  let lines := goSplitDash issue.line
  match goParseUint64 (lines.headD []) with
  | none => none
  | some startLine =>
    match if lines.length > 1 then goParseUint64 ((lines.get? 1).getD []) else some startLine with
    | none => none
    | some endLine =>
      match goParseUint64 issue.col.toList with
      | none => none
      | some col =>
        some ⟨stripRootLoop issue.file rootPaths, ⟨startLine, endLine, col, col⟩⟩

/-- The last configured root that is a string prefix of the file path. -/
def lastMatchRoot (file : String) : List String → Option String
  | [] => none
  | r :: rest =>
    match lastMatchRoot file rest with
    | some r2 => some r2
    | none => if goHasPrefix file r then some r else none

/-- The amended URI contract: the file path with the last matching root (plus
trailing slash, first occurrence) stripped; empty when no root matches. -/
def specSarifURI (file : String) (roots : List String) : String :=
  match lastMatchRoot file roots with
  | none => ""
  | some r => goReplaceFirst file (r ++ "/")

/-- The amended `Line` contract: start from the first dash component, end
from the second when present (further components ignored), end = start for a
single component. -/
def specParseLineRange (line : String) : Option (Nat × Nat) :=
  match goSplitDash line with
  | [] => none
  | [c1] => (goParseUint64 c1).map (fun s => (s, s))
  | c1 :: c2 :: _ =>
    match goParseUint64 c1, goParseUint64 c2 with
    | some s, some e => some (s, e)
    | _, _ => none

/-- The claim's reading of the `Line` grammar: exactly `"n"` or `"n-m"`. -/
def specLineIsSimpleForm (line : String) : Bool :=
  match goSplitDash line with
  | [c1] => (goParseUint64 c1).isSome
  | [c1, c2] => (goParseUint64 c1).isSome && (goParseUint64 c2).isSome
  | _ => false

/-- The stripping fold computes the last matching root, for any accumulator. -/
theorem stripRootLoop_foldl_eq (file : String) :
    ∀ (roots : List String) (acc : String),
      roots.foldl
        (fun acc root =>
          if goHasPrefix file root then goReplaceFirst file (root ++ "/") else acc)
        acc
      = match lastMatchRoot file roots with
        | none => acc
        | some r => goReplaceFirst file (r ++ "/") := by
  intro roots
  induction roots with
  | nil => intro acc; rfl
  | cons r rest ih =>
    intro acc
    by_cases h : goHasPrefix file r <;>
      simp only [List.foldl_cons, lastMatchRoot, h, if_true, if_false, ih] <;>
      cases lastMatchRoot file rest <;> simp [h]

/-- Claim C8 as amended: the builder returns a location exactly when the
first (and, when present, second) dash component of `Line` and the `Col`
field parse as unsigned integers; the region is (start, end, col, col) with
components beyond the second ignored; and the URI strips the last matching
configured root (empty when none matches). -/
theorem C8_sarif_location_amended :
    ∀ (issue : SarifIssue) (roots : List String),
      buildSarifLocation issue roots =
        match specParseLineRange issue.line, goParseUint64 issue.col.toList with
        | some (s, e), some c => some ⟨specSarifURI issue.file roots, ⟨s, e, c, c⟩⟩
        | _, _ => none := by
  intro issue roots
  have huri : stripRootLoop issue.file roots = specSarifURI issue.file roots := by
    unfold stripRootLoop specSarifURI
    exact stripRootLoop_foldl_eq issue.file roots ""
  unfold buildSarifLocation specParseLineRange
  rcases hsp : goSplitDash issue.line with _ | ⟨c1, _ | ⟨c2, rest⟩⟩ <;>
    simp only [hsp, List.headD, List.length, List.get?, Option.getD] <;>
    [skip;
     (cases goParseUint64 c1 <;>
        cases goParseUint64 issue.col.toList <;>
        simp [huri]);
     (cases goParseUint64 c1 <;>
        cases goParseUint64 c2 <;>
        cases goParseUint64 issue.col.toList <;>
        simp [huri])]
  rfl

/-- Counterexample to C8 as stated: with roots `["/a/b", "/a"]` and an issue
at `/a/b/c.go` with Line `"5-7-9"`, the builder returns a location (although
`"5-7-9"` is not of the form `n` or `n-m`, for which the claim requires an
error), and its URI is `b/c.go` — the LAST matching root was stripped — even
though the longest matching root `/a/b` (also a prefix, and longer than
`/a`) would give `c.go`. -/
theorem C8_sarif_location_counterexample :
    buildSarifLocation ⟨"/a/b/c.go", "5-7-9", "3"⟩ ["/a/b", "/a"]
      = some ⟨"b/c.go", ⟨5, 7, 3, 3⟩⟩ ∧
    specLineIsSimpleForm "5-7-9" = false ∧
    goHasPrefix "/a/b/c.go" "/a/b" = true ∧
    goReplaceFirst "/a/b/c.go" ("/a/b" ++ "/") = "c.go" := by
  exact ⟨rfl, rfl, rfl, rfl⟩

/-!
## Suppression stack and visitor dispatch (`Analyzer.ignore` lines 405-442, `Analyzer.Visit` lines 446-495)

A comment group is modelled by whether its text contains the active
suppression token (the default `#nosec` or the configured alternative) and by
the list of `G\d{3}` substrings found in it. An AST node carries a label, its
dynamic node kind, its attached comment groups, and its children; a rule
carries its ID, the node kinds it registered for, and whether its `Match`
yields an issue at a given node label.

`ignore` examines the attached groups in order and acts on the FIRST
token-bearing one: it bumps NumNosec, and either suppresses everything (no
rule IDs listed) or returns the listed IDs. `Visit` pushes the union of the
current top-of-stack frame and the new IDs, dispatches the registered rules
not in that union, and a nil re-entry pops one frame; `ast.Walk` performs the
nil re-entry after the children exactly when the initial visit returned a
non-nil visitor.
-/

/-- A comment group as `ignore` classifies it. -/
structure CommentGroup where
  hasToken : Bool
  ids : List String
deriving DecidableEq, Repr

/-- An AST node for the walk. -/
inductive RNode where
  | node (label : Nat) (kind : Nat) (groups : List CommentGroup) (children : List RNode)
deriving Repr

/-- The comment groups attached to a node. -/
def RNode.groups : RNode → List CommentGroup
  | .node _ _ gs _ => gs

/-- A registered rule: ID, registered node kinds, and whether `Match` returns
an issue at a node with the given label. -/
structure SRule where
  id : String
  kinds : List Nat
  fires : Nat → Bool

/-- The walk state: the suppression stack (innermost frame first), the
NumNosec metric, and the accumulated issues as (rule ID, node label). -/
structure WState where
  ignores : List (List String)
  numNosec : Nat
  issues : List (String × Nat)
deriving Repr

/-- The verdict of `ignore` (lines 405-442) on a node's comment groups:
nothing found, suppress all rules, or suppress the listed rule IDs. -/
inductive IgnoreRes where
  | nores
  | allres
  | these (ids : List String)
deriving DecidableEq, Repr

/-- `ignore`'s loop over the attached groups: the first token-bearing group
decides; `G\d{3}` matches absent means suppress everything. -/
def ignoreScan : List CommentGroup → IgnoreRes
  | [] => .nores
  | g :: rest =>
    if g.hasToken then
      if g.ids.isEmpty then .allres else .these g.ids
    else ignoreScan rest

/-- NumNosec is bumped whenever a token-bearing group was found (line 421). -/
def nosecInc : IgnoreRes → Nat
  | .nores => 0
  | _ => 1

/-- The rule IDs a verdict contributes to the new stack frame. -/
def idsOf : IgnoreRes → List String
  | .these ids => ids
  | _ => []

/-- The dispatch loop (lines 479-493): the rules registered for the node's
kind whose ID is not in the pushed union frame and whose `Match` yields an
issue, in registration order. -/
def rulesFired (rules : List SRule) (kind label : Nat) (ign : List String) :
    List (String × Nat) :=
  (rules.filter
    (fun r => r.kinds.contains kind && !ign.contains r.id && r.fires label)).map
    (fun r => (r.id, label))

mutual

/-- One `ast.Walk` step from `Visit` (lines 446-495): an all-suppression
verdict bumps NumNosec and prunes the subtree (no frame pushed, no rules
run); otherwise the union frame is pushed, the rules dispatch against it, the
children are walked, and the nil re-entry pops one frame. `ignoreNosec` is
the global `nosec` option that disables the suppression system. -/
def walk (ignoreNosec : Bool) (rules : List SRule) : RNode → WState → WState
  | .node label kind groups children, st =>
    match (if ignoreNosec then IgnoreRes.nores else ignoreScan groups) with
    | .allres => { st with numNosec := st.numNosec + 1 }
    | r =>
      let frame := st.ignores.headD [] ++ idsOf r
      let st1 : WState :=
        ⟨frame :: st.ignores, st.numNosec + nosecInc r,
         st.issues ++ rulesFired rules kind label frame⟩
      let st2 := walkList ignoreNosec rules children st1
      { st2 with ignores := st2.ignores.tail }

/-- `ast.Walk` over a child list. -/
def walkList (ignoreNosec : Bool) (rules : List SRule) : List RNode → WState → WState
  | [], st => st
  | c :: cs, st => walkList ignoreNosec rules cs (walk ignoreNosec rules c st)

end

mutual

/-- Declarative NumNosec count: one per visited node bearing a token comment
group; an all-suppressed subtree is pruned, so its descendants count nothing. -/
def specNosec : RNode → Nat
  | .node _ _ groups children =>
    match ignoreScan groups with
    | .allres => 1
    | r => nosecInc r + specNosecList children

/-- `specNosec` over a child list. -/
def specNosecList : List RNode → Nat
  | [] => 0
  | c :: cs => specNosec c + specNosecList cs

end

mutual

/-- Declarative issue semantics with an inherited suppression set: an
all-suppression verdict silences the node and its whole subtree; otherwise
the rules fire against the inherited set united with the listed IDs, and the
children inherit that union. -/
def specIssues (rules : List SRule) (inh : List String) : RNode → List (String × Nat)
  | .node label kind groups children =>
    match ignoreScan groups with
    | .allres => []
    | r =>
      rulesFired rules kind label (inh ++ idsOf r) ++
        specIssuesList rules (inh ++ idsOf r) children

/-- `specIssues` over a child list. -/
def specIssuesList (rules : List SRule) (inh : List String) : List RNode → List (String × Nat)
  | [] => []
  | c :: cs => specIssues rules inh c ++ specIssuesList rules inh cs

end

mutual

/-- The stack-based walk computes the declarative semantics: the stack is
restored, NumNosec grows by the per-node count, and the issues grow by the
inherited-set semantics seeded with the current top frame. -/
theorem walk_eq_spec (rules : List SRule) (n : RNode) (st : WState) :
    walk false rules n st =
      ⟨st.ignores, st.numNosec + specNosec n,
       st.issues ++ specIssues rules (st.ignores.headD []) n⟩ := by
  match n with
  | .node label kind groups children =>
    cases hres : ignoreScan groups with
    | allres =>
      simp [walk, hres, specNosec, specIssues]
    | nores =>
      simp only [walk, hres, if_false, walkList_eq_spec, specNosec, specIssues]
      simp [nosecInc, idsOf, Nat.add_assoc]
    | these ids =>
      simp only [walk, hres, if_false, walkList_eq_spec, specNosec, specIssues]
      simp [nosecInc, idsOf, Nat.add_assoc]

/-- `walk_eq_spec` over a child list. -/
theorem walkList_eq_spec (rules : List SRule) (cs : List RNode) (st : WState) :
    walkList false rules cs st =
      ⟨st.ignores, st.numNosec + specNosecList cs,
       st.issues ++ specIssuesList rules (st.ignores.headD []) cs⟩ := by
  match cs with
  | [] => simp [walkList, specNosecList, specIssuesList]
  | c :: rest =>
    simp only [walkList, walk_eq_spec rules c st, walkList_eq_spec rules rest,
      specNosecList, specIssuesList]
    simp [Nat.add_assoc]

end

/-- Claim C3 as amended: during a file walk the suppression semantics is the
declarative one — a token comment group with no rule IDs silences the whole
attached subtree, which is not descended; a token group with listed IDs
suppresses exactly those IDs united with the enclosing frame while the other
registered rules still fire; and NumNosec increments once per visited node
bearing a token comment group (only the first token-bearing group of a node
is consulted). -/
theorem C3_suppression_amended :
    ∀ (rules : List SRule) (n : RNode) (st : WState),
      walk false rules n st =
        ⟨st.ignores, st.numNosec + specNosec n,
         st.issues ++ specIssues rules (st.ignores.headD []) n⟩ :=
  fun rules n st => walk_eq_spec rules n st

/-- A node carrying two token comment groups, each listing one rule ID. -/
def twoGroupNode : RNode :=
  .node 0 0 [⟨true, ["G101"]⟩, ⟨true, ["G102"]⟩] []

/-- A rule with ID G102 registered for kind 0 whose Match always yields an
issue. -/
def ruleG102 : SRule := ⟨"G102", [0], fun _ => true⟩

/-- Counterexample to C3 as stated: a node bearing two suppression comment
groups is walked; NumNosec rises by 1, not once per group, and G102 — listed
in the second group — is not suppressed and fires. -/
theorem C3_suppression_counterexample :
    (walk false [ruleG102] twoGroupNode ⟨[], 0, []⟩).numNosec = 1 ∧
    (walk false [ruleG102] twoGroupNode ⟨[], 0, []⟩).issues = [("G102", 0)] ∧
    (twoGroupNode.groups.filter (fun g => g.hasToken)).length = 2 := by
  exact ⟨rfl, rfl, rfl⟩

/-!
## R-MapRanging (`mapRanging.Match` lines 40-149, `isMapCopy` lines 155-226)

The type-checker facts each expression node carries are embedded in the node:
whether the dynamic type of `ctx.Info.Types[e].Type` is `*types.Array` or
`*types.Slice`, and whether `Underlying()` is `*types.Map`; `none` models a
nil `TypeOf`. Identifiers carry whether their `ast.Object` link is non-nil
and a numeric id standing for `ctx.Info.ObjectOf`. `printer.Fprint` output is
the structural rendering `MExpr.text`. Messages built with `%T`/`%#v` of
non-string values keep a fixed placeholder, since no claim depends on them.
Indexing `Lhs[0]`/`Rhs[0]` is total on well-formed assignments (Go guarantees
at least one element); the model falls back to a non-matching expression.
-/

/-- The type-checker verdict attached to an expression. -/
structure MTy where
  dynIsArray : Bool
  dynIsSlice : Bool
  undIsMap : Bool
deriving DecidableEq, Repr

/-- Expressions for the map-ranging rule. -/
inductive MExpr where
  | identM (name : String) (hasAstObj : Bool) (semObj : Nat) (ty : Option MTy)
  | indexM (x : MExpr) (idx : MExpr) (ty : Option MTy)
  | callM (funIsIdent : Bool) (funName : String) (args : List MExpr) (ty : Option MTy)
  | otherM (text : String) (ty : Option MTy)
deriving Repr

/-- `ctx.Info.TypeOf` on the embedded expression. -/
def MExpr.ty : MExpr → Option MTy
  | .identM _ _ _ t => t
  | .indexM _ _ t => t
  | .callM _ _ _ t => t
  | .otherM _ t => t

mutual

/-- `printer.Fprint` of an expression. -/
def MExpr.text : MExpr → String
  | .identM name _ _ _ => name
  | .indexM x idx _ => MExpr.text x ++ "[" ++ MExpr.text idx ++ "]"
  | .callM _ fn args _ => fn ++ "(" ++ MExpr.textList args ++ ")"
  | .otherM t _ => t

/-- `printer.Fprint` of an argument list. -/
def MExpr.textList : List MExpr → String
  | [] => ""
  | [e] => MExpr.text e
  | e :: rest => MExpr.text e ++ ", " ++ MExpr.textList rest

end

/-- Statements that can appear in a range body. -/
inductive MStmt where
  | exprStmt (e : MExpr)
  | assignStmt (lhs rhs : List MExpr)
  | otherStmt
deriving Repr

/-- An `*ast.RangeStmt`. -/
structure MRange where
  key : Option MExpr
  value : Option MExpr
  x : Option MExpr
  body : List MStmt
deriving Repr

/-- Outcome of `mapRanging.Match`: `(nil, nil)`, an issue, an error return,
or a Go runtime panic. -/
inductive MatchResult where
  | noIssueM
  | issueM (msg : String)
  | errM (msg : String)
  | panicM (msg : String)
deriving DecidableEq, Repr

/-- Outcome of `isMapCopy`: `(bool, nil)`, `(false, err)`, or a panic. -/
inductive CopyRes where
  | okCopy (b : Bool)
  | errCopy (msg : String)
  | panicCopy (msg : String)
deriving DecidableEq, Repr

/-- Message of the body-length issue (line 76). -/
def mrBodyLenMsg (n : Nat) : String :=
  "expected exactly 1 statement (either append, delete, or copying to another map) in a range with a map, got " ++ toString n

/-- Message of the blank-key issue (line 89). -/
def mrKeyMsg : String :=
  "the key in the range statement should not be _: want: for key := range m"

/-- Message of the non-blank-value issue (line 102). -/
def mrValueMsg : String :=
  "the value in the range statement should be _ unless copying a map: want: for key := range m"

/-- Message of the non-delete call issue (line 110); `%q` of the name. -/
def mrDeleteMsg (name : String) : String :=
  "expected either an append, delete, or copy to another map in a range with a map, got: " ++ goQuote name

/-- Message when the assignment target is not an identifier (line 119). -/
def mrLhsNotIdentMsg : String :=
  "expected either an append, delete, or copy to another map in a range with a map"

/-- Message when the assignment target has a nil ast.Object (line 122). -/
def mrLhsNoObjMsg : String := "expected an array/slice being used to retrieve keys, got _"

/-- Message when the target's type is not an array or slice (line 130);
the `%T` rendering is kept as a placeholder. -/
def mrLhsTypeMsg : String := "expected an array/slice being used to retrieve keys, got <T>"

/-- Message when the right-hand side is not a call (line 138); the `%#v`
rendering is kept as a placeholder. -/
def mrRhsNotCallMsg : String := "expected only an append(), got: <expr>"

/-- Message when the called function is not `append` (line 142); `%#v` of the
name string. -/
def mrAppendMsg (name : String) : String := "expected only an append(), got: " ++ goQuote name

/-- Message of the default statement-kind issue (line 147); `%T` kept as a
placeholder. -/
def mrDefaultMsg : String :=
  "got <T>; expected exactly 1 statement (either append or delete) in a range with a map"

/-- The debug panic message at line 224. -/
def mrPanicMsg (a b : String) : String := "asdfasdf: (" ++ a ++ ") (" ++ b ++ ")\n"

/-- Go `isMapCopy` (lines 155-226): the statement must write through the
range key into a map-underlying destination; with a range value present the
written value must be that value; otherwise the right-hand side must read the
same printed map expression at the range key — and a DIFFERENT map expression
hits the leftover debug `panic` at line 224 instead of returning false. -/
def isMapCopy (rs : MRange) (lhs rhs : List MExpr) : CopyRes :=
  if lhs.length != 1 then .okCopy false
  else
    match lhs.headD (.otherM "" none) with
    | .indexM lx lidx _ =>
      match lx.ty with
      | none => .errCopy "unable to get type of expr"
      | some ty =>
        if !ty.undIsMap then .okCopy false
        else
          match lidx with
          | .identM _ _ lhsKeyObj _ =>
            match rs.key with
            | some (.identM _ _ rangeKeyObj _) =>
              if lhsKeyObj != rangeKeyObj then .okCopy false
              else
                match rs.value with
                | some rv =>
                  match rhs.headD (.otherM "" none) with
                  | .identM _ _ rhsValObj _ =>
                    match rv with
                    | .identM _ _ rangeValObj _ => .okCopy (rhsValObj == rangeValObj)
                    | _ => .okCopy false
                  | _ => .okCopy false
                | none =>
                  match rhs.headD (.otherM "" none) with
                  | .indexM ix iidx _ =>
                    match iidx with
                    | .identM _ _ readKeyObj _ =>
                      if readKeyObj != rangeKeyObj then .okCopy false
                      else
                        match rs.x with
                        | some rx =>
                          if rx.text == ix.text then .okCopy true
                          else .panicCopy (mrPanicMsg rx.text ix.text)
                        | none => .okCopy false
                    | _ => .okCopy false
                  | _ => .okCopy false
            | _ => .okCopy false
          | _ => .okCopy false
    | _ => .okCopy false

/-- Go `mapRanging.Match` (lines 40-149) on a range statement. -/
def mapRangingMatch (rs : MRange) : MatchResult :=
  match rs.x with
  | none => .noIssueM
  | some x =>
    match x.ty with
    | none => .errM "unable to get type of expr"
    | some ty =>
      if !ty.undIsMap then .noIssueM
      else if rs.body.length != 1 then .issueM (mrBodyLenMsg rs.body.length)
      else
        let stmt0 := rs.body.headD .otherStmt
        match rs.key with
        | none => .issueM mrKeyMsg
        | some _ =>
          let copyProbe : Option CopyRes :=
            match stmt0 with
            | .assignStmt lhs rhs => some (isMapCopy rs lhs rhs)
            | _ => none
          match copyProbe with
          | some (.errCopy m) => .errM m
          | some (.panicCopy m) => .panicM m
          | some (.okCopy true) => .noIssueM
          | _ =>
            if rs.value.isSome then .issueM mrValueMsg
            else
              match stmt0 with
              | .exprStmt e =>
                match e with
                | .callM funIsIdent fn _ _ =>
                  if funIsIdent && fn == "delete" then .noIssueM
                  else .issueM (mrDeleteMsg (if funIsIdent then fn else ""))
                | _ => .panicM "interface conversion: ast.Expr is not *ast.CallExpr"
              | .assignStmt lhs rhs =>
                match lhs.headD (.otherM "" none) with
                | .identM _ hasAstObj _ lty =>
                  if !hasAstObj then .issueM mrLhsNoObjMsg
                  else
                    match lty with
                    | none => .errM "unable to get type of lhs"
                    | some t =>
                      if t.dynIsArray || t.dynIsSlice then
                        match rhs.headD (.otherM "" none) with
                        | .callM rFunIsIdent rfn _ _ =>
                          if rFunIsIdent && rfn == "append" then .noIssueM
                          else .issueM (mrAppendMsg (if rFunIsIdent then rfn else ""))
                        | _ => .issueM mrRhsNotCallMsg
                      else .issueM mrLhsTypeMsg
                | _ => .issueM mrLhsNotIdentMsg
              | .otherStmt => .issueM mrDefaultMsg

/-- A plain `map` type. -/
def mapTy : MTy := ⟨false, false, true⟩

/-- The range key `k` (object id 1). -/
def keyIdent : MExpr := .identM "k" true 1 none

/-- The ranged map `m` (object id 2). -/
def mIdent : MExpr := .identM "m" true 2 (some mapTy)

/-- A destination map `dst` (object id 3). -/
def dstIdent : MExpr := .identM "dst" true 3 (some mapTy)

/-- A second source map `other` (object id 4). -/
def otherIdent : MExpr := .identM "other" true 4 (some mapTy)

/-- `for k := range m { dst[k] = other[k] }`. -/
def foreignReadRange : MRange :=
  ⟨some keyIdent, none, some mIdent,
   [.assignStmt [.indexM dstIdent keyIdent none] [.indexM otherIdent keyIdent none]]⟩

/-- `for k := range m { delete(m, k) }`. -/
def deleteClearRange : MRange :=
  ⟨some keyIdent, none, some mIdent,
   [.exprStmt (.callM true "delete" [mIdent, keyIdent] none)]⟩

/-- Claim C2 (code bug): a single-statement body that writes `dst[k]` from a
map other than the ranged one — which the claim places outside the three
permitted forms and therefore expects to be reported as an issue — makes
`Match` hit the leftover debug `panic` at isMapCopy line 224 instead of
returning an Issue; the map-clear idiom `delete(m, k)` is accepted with no
issue, as the claim states. -/
theorem C2_map_ranging_panics :
    mapRangingMatch foreignReadRange = .panicM (mrPanicMsg "m" "other") ∧
    mapRangingMatch deleteClearRange = .noIssueM := by
  exact ⟨rfl, rfl⟩

/-!
## ParseErrors and Process (analyzer source lines 136-160 and 356-386)

A loaded package is its name, its load-time errors (position string and
message), and a numeric id used to record which packages `Check` ran on.
`gosec.errors` is the per-file error map; `Process` is modelled over the
loader's results (one package list per path), with the mutable analyzer state
carried alongside the error value so that the abort point is observable.
`strings.TrimSpace` is modelled over ASCII white space.
-/

/-- A gosec `Error` entry (line, column, message). -/
structure GoError where
  line : Int
  column : Int
  err : String
deriving DecidableEq, Repr

/-- A load-time package error: `Pos` string and message. -/
structure PkgError where
  pos : String
  msg : String
deriving DecidableEq, Repr

/-- A loaded package. -/
structure GoPackage where
  name : String
  errors : List PkgError
  id : Nat
deriving DecidableEq, Repr

/-- The per-file error map `gosec.errors`. -/
abbrev ErrMap := List (String × List GoError)

/-- `gosec.errors[file] = append(existing, e)` (lines 378-383). -/
def errMapAppend (m : ErrMap) (file : String) (e : GoError) : ErrMap :=
  match m with
  | [] => [(file, [e])]
  | (f, es) :: rest =>
    if f == file then (f, es ++ [e]) :: rest else (f, es) :: errMapAppend rest file e

/-- ASCII white space for `strings.TrimSpace`. -/
def isGoSpace (c : Char) : Bool :=
  c == ' ' || c == '\t' || c == '\n' || c == '\r' || c == '\x0b' || c == '\x0c'

/-- Go `strings.TrimSpace` (ASCII subset). -/
def goTrimSpace (s : String) : String :=
  String.mk (((s.toList.dropWhile isGoSpace).reverse.dropWhile isGoSpace).reverse)

/-- `strings.Split(pkgErr.Pos, ":")` (line 361). -/
def posParts (pos : String) : List (List Char) := pos.toList.splitOn ':'

/-- Parse of the i-th colon component as done at lines 365-375: only when the
position has more than i components, otherwise 0; a failing `strconv.Atoi`
yields the wrapped message. -/
def parseComp (parts : List (List Char)) (i : Nat) (emsg : String) : Except String Int :=
  if i < parts.length then
    match goAtoi (String.mk ((parts.get? i).getD [])) with
    | some l => .ok l
    | none => .error emsg
  else .ok 0

/-- One iteration of the `ParseErrors` loop (lines 360-384): split the
position on colons; parse the second component as the line and the third as
the column, returning a conversion error on failure; append the entry to the
file's error list. -/
def parseOneError (m : ErrMap) (e : PkgError) : Except String ErrMap :=
  match parseComp (posParts e.pos) 1 "parsing line" with
  | .error msg => .error msg
  | .ok line =>
    match parseComp (posParts e.pos) 2 "parsing column" with
    | .error msg => .error msg
    | .ok column =>
      .ok (errMapAppend m (String.mk ((posParts e.pos).headD []))
        ⟨line, column, goTrimSpace e.msg⟩)

/-- Go `Analyzer.ParseErrors` (lines 356-386). -/
def parseErrors (m : ErrMap) (pkg : GoPackage) : Except String ErrMap :=
  pkg.errors.foldlM parseOneError m

/-- The analyzer state `Process` threads: the error map and the ids of the
packages `Check` has run on. -/
structure ProcState where
  errors : ErrMap
  checked : List Nat
deriving DecidableEq, Repr

/-- The package loop of `Process` (lines 148-156): packages with an empty
name are skipped; otherwise `ParseErrors` runs first and a failure aborts the
whole run with the wrapped message; `Check` then runs. The error value
carries the state at the abort point. -/
def processPkgs : List GoPackage → ProcState → Except (String × ProcState) ProcState
  | [], st => .ok st
  | pkg :: rest, st =>
    if pkg.name != "" then
      match parseErrors st.errors pkg with
      | .error msg =>
        .error ("parsing errors in pkg " ++ goQuote pkg.name ++ ": " ++ msg, st)
      | .ok m2 => processPkgs rest ⟨m2, st.checked ++ [pkg.id]⟩
    else processPkgs rest st

/-- Go `sortErrors` (reached on success only, line 158): each file's entries
sorted by line, then column. -/
def sortErrorsMap (m : ErrMap) : ErrMap :=
  m.map (fun fe =>
    (fe.1,
     fe.2.mergeSort (fun a b =>
       decide (a.line < b.line ∨ (a.line = b.line ∧ a.column ≤ b.column)))))

/-- Go `Analyzer.Process` (lines 136-160) over the loader's results, one
package list per path. -/
def processPaths : List (List GoPackage) → ProcState → Except (String × ProcState) ProcState
  | [], st => .ok ⟨sortErrorsMap st.errors, st.checked⟩
  | pkgs :: restPaths, st =>
    match processPkgs pkgs st with
    | .error e => .error e
    | .ok st2 => processPaths restPaths st2

/-- The claim's malformedness: the position string lists a line or column
component that does not parse as a number. -/
def specMalformedPos (pos : String) : Bool :=
  (decide (1 < (posParts pos).length) &&
    (goAtoi (String.mk (((posParts pos).get? 1).getD []))).isNone) ||
  (decide (2 < (posParts pos).length) &&
    (goAtoi (String.mk (((posParts pos).get? 2).getD []))).isNone)

/-- `parseComp` fails exactly on a present non-numeric component. -/
theorem parseComp_err (parts : List (List Char)) (i : Nat) (emsg : String)
    (h1 : i < parts.length)
    (h2 : goAtoi (String.mk ((parts.get? i).getD [])) = none) :
    parseComp parts i emsg = .error emsg := by
  unfold parseComp
  rw [if_pos h1, h2]

/-- `parseComp` succeeds when the component is absent or numeric. -/
theorem parseComp_ok (parts : List (List Char)) (i : Nat) (emsg : String)
    (h : ¬(i < parts.length ∧ goAtoi (String.mk ((parts.get? i).getD [])) = none)) :
    ∃ v, parseComp parts i emsg = .ok v := by
  unfold parseComp
  by_cases h1 : i < parts.length
  · rw [if_pos h1]
    cases hg : goAtoi (String.mk ((parts.get? i).getD [])) with
    | none => exact absurd ⟨h1, hg⟩ h
    | some v => exact ⟨v, rfl⟩
  · rw [if_neg h1]
    exact ⟨0, rfl⟩

/-- A malformed entry makes `parseOneError` fail, for any map. -/
theorem parseOneError_malformed (m : ErrMap) (e : PkgError)
    (h : specMalformedPos e.pos = true) : ∃ msg, parseOneError m e = .error msg := by
  unfold specMalformedPos at h
  simp only [Bool.or_eq_true, Bool.and_eq_true, decide_eq_true_eq,
    Option.isNone_iff_eq_none] at h
  unfold parseOneError
  rcases h with ⟨h1, h2⟩ | ⟨h1, h2⟩
  · rw [parseComp_err (posParts e.pos) 1 "parsing line" h1 h2]
    exact ⟨"parsing line", rfl⟩
  · cases hline : parseComp (posParts e.pos) 1 "parsing line" with
    | error msg => exact ⟨msg, rfl⟩
    | ok line =>
      rw [parseComp_err (posParts e.pos) 2 "parsing column" h1 h2]
      exact ⟨"parsing column", rfl⟩

/-- A well-formed entry makes `parseOneError` succeed, for any map. -/
theorem parseOneError_wellformed (m : ErrMap) (e : PkgError)
    (h : specMalformedPos e.pos = false) : ∃ m2, parseOneError m e = .ok m2 := by
  unfold specMalformedPos at h
  rw [Bool.or_eq_false_iff] at h
  obtain ⟨ha, hb⟩ := h
  have hno1 : ¬(1 < (posParts e.pos).length ∧
      goAtoi (String.mk (((posParts e.pos).get? 1).getD [])) = none) := by
    intro hcontra
    obtain ⟨x, y⟩ := hcontra
    rw [Bool.and_eq_false_iff] at ha
    rcases ha with ha | ha
    · rw [decide_eq_false_iff_not] at ha
      exact ha x
    · rw [y] at ha
      exact absurd ha (by simp)
  have hno2 : ¬(2 < (posParts e.pos).length ∧
      goAtoi (String.mk (((posParts e.pos).get? 2).getD [])) = none) := by
    intro hcontra
    obtain ⟨x, y⟩ := hcontra
    rw [Bool.and_eq_false_iff] at hb
    rcases hb with hb | hb
    · rw [decide_eq_false_iff_not] at hb
      exact hb x
    · rw [y] at hb
      exact absurd hb (by simp)
  obtain ⟨v1, hv1⟩ := parseComp_ok (posParts e.pos) 1 "parsing line" hno1
  obtain ⟨v2, hv2⟩ := parseComp_ok (posParts e.pos) 2 "parsing column" hno2
  unfold parseOneError
  rw [hv1, hv2]
  exact ⟨_, rfl⟩

/-- Folding `parseOneError` over a list with some malformed entry fails, for
any map. -/
theorem foldlM_parse_malformed :
    ∀ (es : List PkgError),
      (∃ e ∈ es, specMalformedPos e.pos = true) →
      ∀ m, ∃ msg, es.foldlM parseOneError m = .error msg := by
  intro es
  induction es with
  | nil =>
    intro h
    obtain ⟨e, he, _⟩ := h
    cases he
  | cons e0 rest ih =>
    intro h m
    by_cases hm0 : specMalformedPos e0.pos = true
    · obtain ⟨msg, hmsg⟩ := parseOneError_malformed m e0 hm0
      exact ⟨msg, by rw [List.foldlM_cons, hmsg]; rfl⟩
    · have he' : ∃ e ∈ rest, specMalformedPos e.pos = true := by
        obtain ⟨e, he, hm⟩ := h
        rcases List.mem_cons.mp he with rfl | hr
        · exact absurd hm hm0
        · exact ⟨e, hr, hm⟩
      obtain ⟨m2, hm2⟩ := parseOneError_wellformed m e0 (by simpa using hm0)
      obtain ⟨msg, hmsg⟩ := ih he' m2
      exact ⟨msg, by rw [List.foldlM_cons, hm2]; exact hmsg⟩

/-- Folding `parseOneError` over well-formed entries succeeds, for any map. -/
theorem foldlM_parse_wellformed :
    ∀ (es : List PkgError),
      (∀ e ∈ es, specMalformedPos e.pos = false) →
      ∀ m, ∃ m2, es.foldlM parseOneError m = .ok m2 := by
  intro es
  induction es with
  | nil => exact fun _ m => ⟨m, rfl⟩
  | cons e0 rest ih =>
    intro h m
    obtain ⟨m1, hm1⟩ := parseOneError_wellformed m e0 (h e0 (by simp))
    obtain ⟨m2, hm2⟩ := ih (fun e he => h e (by simp [he])) m1
    exact ⟨m2, by rw [List.foldlM_cons, hm1]; exact hm2⟩

/-- A package with some malformed entry makes `ParseErrors` fail. -/
theorem parseErrors_malformed (pkg : GoPackage)
    (h : ∃ e ∈ pkg.errors, specMalformedPos e.pos = true) :
    ∀ m, ∃ msg, parseErrors m pkg = .error msg :=
  foldlM_parse_malformed pkg.errors h

/-- A package with only well-formed entries makes `ParseErrors` succeed. -/
theorem parseErrors_wellformed (pkg : GoPackage)
    (h : ∀ e ∈ pkg.errors, specMalformedPos e.pos = false) :
    ∀ m, ∃ m2, parseErrors m pkg = .ok m2 :=
  foldlM_parse_wellformed pkg.errors h

/-- The package loop aborts at the malformed package, having checked exactly
the non-empty-named packages before it. -/
theorem processPkgs_aborts :
    ∀ (pre : List GoPackage) (post : List GoPackage) (st : ProcState) (pkg : GoPackage),
      (∀ q ∈ pre, q.name = "" ∨ ∀ e ∈ q.errors, specMalformedPos e.pos = false) →
      pkg.name ≠ "" →
      (∃ e ∈ pkg.errors, specMalformedPos e.pos = true) →
      ∃ msg stErr,
        processPkgs (pre ++ pkg :: post) st = .error (msg, stErr) ∧
        stErr.checked = st.checked ++ (pre.filter (fun q => q.name != "")).map GoPackage.id := by
  intro pre
  induction pre with
  | nil =>
    intro post st pkg _ hname hmal
    obtain ⟨msg, hmsg⟩ := parseErrors_malformed pkg hmal st.errors
    have hname' : (pkg.name != "") = true := by simpa using hname
    refine ⟨"parsing errors in pkg " ++ goQuote pkg.name ++ ": " ++ msg, st, ?_, by simp⟩
    simp [processPkgs, hname', hmsg]
  | cons q pre' ih =>
    intro post st pkg hpre hname hmal
    by_cases hq : q.name = ""
    · obtain ⟨msg, stErr, hrun, hchk⟩ :=
        ih post st pkg (fun r hr => hpre r (by simp [hr])) hname hmal
      have hq' : (q.name != "") = false := by simp [hq]
      refine ⟨msg, stErr, ?_, ?_⟩
      · simpa [processPkgs, hq'] using hrun
      · rw [hchk]
        simp [List.filter_cons, hq']
    · have hclean : ∀ e ∈ q.errors, specMalformedPos e.pos = false := by
        rcases hpre q (by simp) with h | h
        · exact absurd h hq
        · exact h
      obtain ⟨m2, hm2⟩ := parseErrors_wellformed q hclean st.errors
      have hq' : (q.name != "") = true := by simpa using hq
      obtain ⟨msg, stErr, hrun, hchk⟩ :=
        ih post ⟨m2, st.checked ++ [q.id]⟩ pkg (fun r hr => hpre r (by simp [hr])) hname hmal
      refine ⟨msg, stErr, ?_, ?_⟩
      · simpa [processPkgs, hq', hm2] using hrun
      · rw [hchk]
        simp [List.filter_cons, hq']

/-- Claim C10: when some loaded package (with a non-empty name) carries an
error whose position has a non-numeric line or column component, ParseErrors
fails for that package under every error map, and Process aborts with the
wrapped error: the malformed package is never checked and the remaining
packages and paths are abandoned — the packages checked are exactly the
non-empty-named ones preceding it on its path. -/
theorem C10_process_aborts :
    ∀ (pre post : List GoPackage) (restPaths : List (List GoPackage)) (st : ProcState)
      (pkg : GoPackage),
      (∀ q ∈ pre, q.name = "" ∨ ∀ e ∈ q.errors, specMalformedPos e.pos = false) →
      pkg.name ≠ "" →
      (∃ e ∈ pkg.errors, specMalformedPos e.pos = true) →
      (∀ m, ∃ pmsg, parseErrors m pkg = .error pmsg) ∧
      ∃ msg stErr,
        processPaths ((pre ++ pkg :: post) :: restPaths) st = .error (msg, stErr) ∧
        stErr.checked = st.checked ++ (pre.filter (fun q => q.name != "")).map GoPackage.id := by
  intro pre post restPaths st pkg hpre hname hmal
  refine ⟨parseErrors_malformed pkg hmal, ?_⟩
  obtain ⟨msg, stErr, hrun, hchk⟩ := processPkgs_aborts pre post st pkg hpre hname hmal
  exact ⟨msg, stErr, by simp [processPaths, hrun], hchk⟩

/-- A clean package whose single error parses. -/
def cleanPkg : GoPackage := ⟨"clean", [⟨"clean.go:3:7", "boom"⟩], 10⟩

/-- A package with a non-numeric line component in an error position. -/
def badPkg : GoPackage := ⟨"bad", [⟨"bad.go:abc:3", "broken"⟩], 11⟩

/-- A package after the malformed one on the same path. -/
def tailPkg : GoPackage := ⟨"tail", [], 12⟩

/-- A package on a later path. -/
def lastPkg : GoPackage := ⟨"last", [], 13⟩

/-- Witness for C10: with a clean package before the malformed one, a package
after it, and one more path, the run aborts having checked only the clean
package. -/
theorem C10_process_aborts_witness :
    (∀ m, ∃ pmsg, parseErrors m badPkg = .error pmsg) ∧
    ∃ msg stErr,
      processPaths (([cleanPkg] ++ badPkg :: [tailPkg]) :: [[lastPkg]]) ⟨[], []⟩
        = .error (msg, stErr) ∧
      stErr.checked =
        [] ++ ([cleanPkg].filter (fun q => q.name != "")).map GoPackage.id :=
  C10_process_aborts [cleanPkg] [tailPkg] [[lastPkg]] ⟨[], []⟩ badPkg
    (by decide) (by decide) (by decide)
